import Mathlib

/-!
Verification of the offline-website-mirroring engine (`src/index.js`).

The program is embedded shallowly: strings are `List Char`, the JavaScript
`Set`/`Map` objects become insertion-ordered association lists, the WHATWG
`URL` class is modelled by a small parser covering the URL shapes the scraper
handles (`scheme://host/path?query#hash`), `Date.now()` becomes an explicit
clock argument, and the network / headless-browser collaborators become
oracle functions supplied to each operation.  A promise outcome is
`PromiseRes` (`.resolved b` = resolved value, `.rejected` = rejected) wrapped
in `Option` (`none` = non-termination of an unbounded redirect chain, cut off
by fuel).
-/

set_option maxRecDepth 8000

abbrev Str := List Char

/-- Single-quote character (written numerically to keep source free of quote
literals). -/
def sqc : Char := Char.ofNat 39

/-- Double-quote character. -/
def dqc : Char := Char.ofNat 34

/-- Backslash character. -/
def bslc : Char := Char.ofNat 92

/-- Boolean prefix test on character lists (JS `String.prototype.startsWith`). -/
def isPre : Str → Str → Bool
  | [], _ => true
  | _ :: _, [] => false
  | a :: s, b :: t => a = b && isPre s t

/-- Boolean suffix test (JS `String.prototype.endsWith`). -/
def endsWithL (s l : Str) : Bool := isPre s.reverse l.reverse

/-- Substring containment (JS `String.prototype.includes`). -/
def containsSub (pat : Str) : Str → Bool
  | [] => isPre pat []
  | c :: t => isPre pat (c :: t) || containsSub pat t

/-- Split at the first occurrence of `pat`, returning the parts before and
after it. -/
def splitSub (pat : Str) : Str → Option (Str × Str)
  | [] => if pat = [] then some ([], []) else none
  | c :: t =>
    if isPre pat (c :: t) then some ([], List.drop pat.length (c :: t))
    else (splitSub pat t).map (fun p => (c :: p.1, p.2))

/-- JS `String.prototype.split` with a single-character separator. -/
def splitOnChar (sep : Char) : Str → List Str
  | [] => [[]]
  | c :: rest =>
    let r := splitOnChar sep rest
    if c = sep then [] :: r
    else
      match r with
      | h :: t => (c :: h) :: t
      | [] => [[c]]

/-- Replace the first occurrence of `pat` (JS `String.prototype.replace` with
a plain-string pattern). -/
def replaceFirst (pat repl : Str) : Str → Str
  | [] => if isPre pat [] then repl else []
  | c :: t =>
    if isPre pat (c :: t) then repl ++ List.drop pat.length (c :: t)
    else c :: replaceFirst pat repl t

/-- Lower-case every character (JS `String.prototype.toLowerCase`, ASCII part). -/
def toLowerL (s : Str) : Str := s.map Char.toLower

/-- `'../'.repeat n`. -/
def repeatL (s : Str) : Nat → Str
  | 0 => []
  | n + 1 => s ++ repeatL s n

/-- Decimal digits of a natural number (used to model `Date.now()`
interpolation into file names). -/
def natDigits (n : Nat) : Str := Nat.toDigits 10 n

/-- `JS Set.add`: append iff absent, preserving insertion order. -/
def setAdd (x : Str) (l : List Str) : List Str := if x ∈ l then l else l ++ [x]

/-- `JS Map.get`. -/
def mapGet {α : Type} (k : Str) : List (Str × α) → Option α
  | [] => none
  | (k₁, v) :: t => if k₁ = k then some v else mapGet k t

/-- `JS Map.set`: overwrite in place if the key exists, else append. -/
def mapSet {α : Type} (k : Str) (v : α) : List (Str × α) → List (Str × α)
  | [] => [(k, v)]
  | (k₁, v₁) :: t => if k₁ = k then (k, v) :: t else (k₁, v₁) :: mapSet k v t

/-- `fs.unlink`: drop the entry for a path. -/
def mapRemove {α : Type} (k : Str) : List (Str × α) → List (Str × α)
  | [] => []
  | (k₁, v₁) :: t => if k₁ = k then t else (k₁, v₁) :: mapRemove k t

/-! ## The WHATWG `URL` collaborator (Node `url` module), restricted to the
absolute `scheme://host/path?query#hash` shapes the scraper feeds it. -/

structure URLRec where
  protocol : Str  -- includes the trailing colon, as in JS (`"https:"`)
  hostname : Str
  pathname : Str  -- begins with a slash; defaults to "/"
  search : Str    -- empty or begins with a question mark
  hash : Str      -- empty or begins with a hash mark
  deriving DecidableEq, Repr

def isSchemeChar (c : Char) : Bool :=
  c.isAlpha || c.isDigit || c = '+' || c = '-' || c = '.'

def isHostEnd (c : Char) : Bool := c = '/' || c = '?' || c = '#'

/-- `new URL(s)` for absolute URLs; `none` models the constructor throwing. -/
def parseUrl (s : Str) : Option URLRec :=
  match splitSub (':' :: '/' :: '/' :: []) s with
  | none => none
  | some (scheme, rest) =>
    if scheme = [] then none
    else if !(scheme.all isSchemeChar) then none
    else
      let host := rest.takeWhile (fun c => !(isHostEnd c))
      if host = [] then none
      else
        let rest₁ := rest.drop host.length
        let pathPart := rest₁.takeWhile (fun c => !(c = '?' || c = '#'))
        let pathname := if pathPart = [] then ['/'] else pathPart
        let rest₂ := rest₁.drop pathPart.length
        let search := rest₂.takeWhile (fun c => !(c = '#'))
        let hash := rest₂.drop search.length
        some ⟨toLowerL scheme ++ [':'], toLowerL host, pathname, search, hash⟩

/-- The scraper's "clean URL": protocol + host + path + query, fragment
dropped (`src/index.js:386,939`). -/
def cleanUrl (u : URLRec) : Str :=
  u.protocol ++ ('/' :: '/' :: []) ++ u.hostname ++ u.pathname ++ u.search

/-- `URL.href` serialization for the modelled subset. -/
def urlHref (u : URLRec) : Str := cleanUrl u ++ u.hash

/-- `new URL(loc, base).href`: absolute `loc` wins; otherwise resolve against
`base` (root-relative, protocol-relative, or path-relative). -/
def resolveUrl (loc base : Str) : Str :=
  match parseUrl loc with
  | some u => urlHref u
  | none =>
    match parseUrl base with
    | none => loc
    | some b =>
      if isPre ('/' :: '/' :: []) loc then b.protocol ++ loc
      else if isPre ['/'] loc then b.protocol ++ ('/' :: '/' :: []) ++ b.hostname ++ loc
      else
        let dir := (b.pathname.reverse.dropWhile (fun c => !(c = '/'))).reverse
        b.protocol ++ ('/' :: '/' :: []) ++ b.hostname ++ dir ++ loc

/-! ## Node `path` module (posix behaviour, as exercised by the scraper) -/

/-- `path.basename`. -/
def basenameL (p : Str) : Str := (p.reverse.takeWhile (fun c => !(c = '/'))).reverse

/-- `path.extname`: from the last dot of the basename, unless that dot is the
basename's first character. -/
def extnameL (p : Str) : Str :=
  let b := basenameL p
  let revTail := b.reverse.takeWhile (fun c => !(c = '.'))
  if revTail.length = b.length then []
  else if revTail.length + 1 = b.length then []
  else '.' :: revTail.reverse

/-- `path.dirname`. -/
def dirnameL (p : Str) : Str :=
  let b := basenameL p
  if b.length = p.length then ['.']
  else
    let d := p.take (p.length - b.length - 1)
    if d = [] then ['/'] else d

/-- `path.join` on the shapes used here (no dot-segment normalisation needed). -/
def joinPath (a b : Str) : Str :=
  if a = [] then b
  else if endsWithL (['/']) a then a ++ b
  else a ++ ('/' :: b)

/-- Interleave path segments with slashes. -/
def joinSegs : List Str → Str
  | [] => []
  | [s] => s
  | s :: rest => s ++ ('/' :: joinSegs rest)

def dropCommonPre : List Str → List Str → List Str × List Str
  | a :: as₁, b :: bs₁ => if a = b then dropCommonPre as₁ bs₁ else (a :: as₁, b :: bs₁)
  | as₁, bs₁ => (as₁, bs₁)

/-- `path.relative` for the relative, already-normalised paths the scraper
produces (both resolved against the same working directory). -/
def pathRelative (f t : Str) : Str :=
  let fs := (splitOnChar '/' f).filter (fun s => !(s = []))
  let ts := (splitOnChar '/' t).filter (fun s => !(s = []))
  let p := dropCommonPre fs ts
  joinSegs (List.replicate p.1.length ('.' :: '.' :: []) ++ p.2)

/-! ## Path Resolver (`getResourcePath`, `urlToFilePath`, `src/index.js:212-272,979-1007`) -/

/-- Characters illegal in filenames, replaced by underscore
(`pathname.replace(/[<>:"|?*]/g, '_')`). -/
def sanitizeFile (p : Str) : Str :=
  p.map (fun c => if c = '<' || c = '>' || c = ':' || c = dqc || c = '|' || c = '?' || c = '*' then '_' else c)

/-- Query-string sanitisation (`replace(/[<>:"|?*&=]/g, '_')`). -/
def sanitizeQuery (q : Str) : Str :=
  q.map (fun c => if c = '<' || c = '>' || c = ':' || c = dqc || c = '|' || c = '?' || c = '*' || c = '&' || c = '=' then '_' else c)

/-- Strip one leading slash, as both path mappers do first. -/
def stripLeadingSlash (p : Str) : Str := if isPre (['/']) p then p.drop 1 else p

/-- `getResourcePath(url)` (`src/index.js:212-272`), the asset-path mapper.
`now` models `Date.now()`, read in the empty-path and catch branches. -/
def getResourcePath (url : Str) (now : Nat) : Str :=
  match parseUrl url with
  | none =>
    ('a' :: 's' :: 's' :: 'e' :: 't' :: 's' :: '/' :: []) ++
      ('u' :: 'n' :: 'k' :: 'n' :: 'o' :: 'w' :: 'n' :: '_' :: 'r' :: 'e' :: 's' :: 'o' :: 'u' :: 'r' :: 'c' :: 'e' :: '_' :: []) ++ natDigits now
  | some u =>
    let p₀ := stripLeadingSlash u.pathname
    let p₁ := if p₀ = [] then ('r' :: 'e' :: 's' :: 'o' :: 'u' :: 'r' :: 'c' :: 'e' :: '_' :: []) ++ natDigits now else p₀
    let p₂ := if isPre ('a' :: 's' :: 's' :: 'e' :: 't' :: 's' :: '/' :: []) p₁ then p₁.drop 7 else p₁
    let p₃ := sanitizeFile p₂
    let p₄ :=
      if extnameL p₃ = [] then
        let segs := splitOnChar '/' p₃
        let lastSeg := segs.getLastD []
        if !(containsSub (['.']) lastSeg) && !(lastSeg = []) then
          if containsSub ('/' :: 'c' :: 's' :: 's' :: '/' :: []) p₃ ||
             containsSub ('s' :: 't' :: 'y' :: 'l' :: 'e' :: 's' :: 'h' :: 'e' :: 'e' :: 't' :: []) p₃ ||
             containsSub ('.' :: 'c' :: 's' :: 's' :: []) p₃ then p₃ ++ ('.' :: 'c' :: 's' :: 's' :: [])
          else if containsSub ('/' :: 'j' :: 's' :: '/' :: []) p₃ ||
             containsSub ('j' :: 'a' :: 'v' :: 'a' :: 's' :: 'c' :: 'r' :: 'i' :: 'p' :: 't' :: []) p₃ ||
             containsSub ('.' :: 'j' :: 's' :: []) p₃ then p₃ ++ ('.' :: 'j' :: 's' :: [])
          else if containsSub ('/' :: 'i' :: 'm' :: 'g' :: '/' :: []) p₃ ||
             containsSub ('/' :: 'i' :: 'm' :: 'a' :: 'g' :: 'e' :: 's' :: '/' :: []) p₃ ||
             containsSub ('i' :: 'm' :: 'a' :: 'g' :: 'e' :: []) p₃ then p₃ ++ ('.' :: 'p' :: 'n' :: 'g' :: [])
          else if containsSub ('/' :: 'p' :: 'd' :: 'f' :: '/' :: []) p₃ ||
             containsSub ('d' :: 'o' :: 'c' :: 'u' :: 'm' :: 'e' :: 'n' :: 't' :: []) p₃ then p₃ ++ ('.' :: 'p' :: 'd' :: 'f' :: [])
          else if containsSub ('/' :: 'v' :: 'i' :: 'd' :: 'e' :: 'o' :: '/' :: []) p₃ ||
             containsSub ('m' :: 'p' :: '4' :: []) p₃ then p₃ ++ ('.' :: 'm' :: 'p' :: '4' :: [])
          else if containsSub ('/' :: 'a' :: 'u' :: 'd' :: 'i' :: 'o' :: '/' :: []) p₃ ||
             containsSub ('m' :: 'p' :: '3' :: []) p₃ then p₃ ++ ('.' :: 'm' :: 'p' :: '3' :: [])
          else p₃ ++ ('.' :: 'r' :: 'e' :: 's' :: 'o' :: 'u' :: 'r' :: 'c' :: 'e' :: [])
        else p₃
      else p₃
    let p₅ :=
      if !(u.search = []) then
        let ext := extnameL p₄
        let nm := if ext.length = 0 then [] else p₄.take (p₄.length - ext.length)
        let qs := sanitizeQuery (u.search.drop 1)
        nm ++ ('_' :: []) ++ qs ++ ext
      else p₄
    ('a' :: 's' :: 's' :: 'e' :: 't' :: 's' :: '/' :: []) ++ p₅

/-- `urlToFilePath(url)` (`src/index.js:979-1007`), the page-path mapper.
The `_now` clock argument models the call-time environment; the source never
reads it in this function. -/
def urlToFilePath (url : Str) (_now : Nat) : Str :=
  match parseUrl url with
  | none => 'u' :: 'n' :: 'k' :: 'n' :: 'o' :: 'w' :: 'n' :: '_' :: 'p' :: 'a' :: 'g' :: 'e' :: []
  | some u =>
    let p₀ := stripLeadingSlash u.pathname
    let p₁ := if p₀ = [] || endsWithL (['/']) p₀ then p₀ ++ ('i' :: 'n' :: 'd' :: 'e' :: 'x' :: []) else p₀
    let p₂ := sanitizeFile p₁
    let p₃ :=
      if !(u.search = []) then
        p₂ ++ ('_' :: []) ++ sanitizeQuery (u.search.drop 1)
      else p₂
    p₃

/-- The page file name actually written by `scrapePage`
(`src/index.js:879-885`): `.html` appended only when missing. -/
def savedFileName (url : Str) (now : Nat) : Str :=
  let fp := urlToFilePath url now
  if endsWithL ('.' :: 'h' :: 't' :: 'm' :: 'l' :: []) fp then fp
  else fp ++ ('.' :: 'h' :: 't' :: 'm' :: 'l' :: [])

/-- The `fileName` recorded in the structured manifest
(`src/index.js:1026`): `.html` appended unconditionally. -/
def sitemapFileName (url : Str) (now : Nat) : Str :=
  urlToFilePath url now ++ ('.' :: 'h' :: 't' :: 'm' :: 'l' :: [])

/-! ## Resource Fetcher (`downloadResource`, `src/index.js:22-153`)

The HTTP collaborator is an oracle `Str → HttpResp`.  A call's outcome is
`some (.resolved b)` when the promise resolves with `b`, `some .rejected` when it
rejects (the `reject(...)` paths: transport error, timeout, stream error,
redirect without `Location`), and `none` when the fuel bound is exhausted
(modelling divergence of an unbounded redirect chain).  Note the source
`return new Promise(...)` is not awaited inside the `try`, so rejections
propagate to the caller rather than being converted to `false` by the
`catch` at line 149. -/

inductive PromiseRes where
  | resolved (value : Bool)
  | rejected
  deriving DecidableEq, Repr

inductive HttpResp where
  | ok (body : Str)
  | redirect (loc : Option Str)
  | otherStatus
  | transportErr
  | timeout
  deriving DecidableEq, Repr

structure DLOut where
  res : Option PromiseRes
  dl : List Str
  disk : List (Str × Str)
  net : Nat
  deriving DecidableEq, Repr

/-- The pre-network phase of `downloadResource`: the Downloaded-set check
(line 23), the on-disk existence check (line 30), and URL parsing (line 39,
whose throw is caught at line 149 and returned as `false`).  `none` means the
function proceeds to the network. -/
def dlPre (url outPath : Str) (dl : List Str) (disk : List (Str × Str)) : Option DLOut :=
  if url ∈ dl then some ⟨some (.resolved true), dl, disk, 0⟩
  else if (mapGet outPath disk).isSome then some ⟨some (.resolved true), setAdd url dl, disk, 0⟩
  else if (parseUrl url).isNone then some ⟨some (.resolved false), dl, disk, 0⟩
  else none

/-- `downloadResource(url, outputPath)` over the download state
(Downloaded-set × filesystem).  `net` counts HTTP requests issued.
`fs.createWriteStream` creates the file, which every failure path unlinks. -/
def downloadResource (http : Str → HttpResp) : Nat → Str → Str → List Str → List (Str × Str) → DLOut
  | 0, url, outPath, dl, disk =>
    (match dlPre url outPath dl disk with
     | some r => r
     | none => ⟨none, dl, disk, 0⟩)
  | fuel + 1, url, outPath, dl, disk =>
    (match dlPre url outPath dl disk with
     | some r => r
     | none =>
       let disk₁ := mapSet outPath [] disk
       match http url with
       | .ok body => ⟨some (.resolved true), setAdd url dl, mapSet outPath body disk₁, 1⟩
       | .redirect (some loc) =>
         let d := downloadResource http fuel (resolveUrl loc url) outPath dl (mapRemove outPath disk₁)
         ⟨d.res, d.dl, d.disk, d.net + 1⟩
       | .redirect none => ⟨some .rejected, dl, mapRemove outPath disk₁, 1⟩
       | .otherStatus => ⟨some (.resolved false), dl, mapRemove outPath disk₁, 1⟩
       | .transportErr => ⟨some .rejected, dl, mapRemove outPath disk₁, 1⟩
       | .timeout => ⟨some .rejected, dl, mapRemove outPath disk₁, 1⟩)

/-! ## CSS Resource Processor (`processCssFile`, `src/index.js:155-210`) -/

/-- One attempt of the regex `/url\(['"]?([^'")]+)['"]?\)/` anchored at the
head of `l`: returns the match text, the captured URL, and the remainder. -/
def tryMatchUrl (l : Str) : Option (Str × Str × Str) :=
  if isPre ('u' :: 'r' :: 'l' :: '(' :: []) l then
    let rest := l.drop 4
    let leadQ : Str := match rest with
      | c :: _ => if c = sqc || c = dqc then [c] else []
      | [] => []
    let rest₁ := rest.drop leadQ.length
    let body := rest₁.takeWhile (fun c => !(c = sqc || c = dqc || c = ')'))
    if body = [] then none
    else
      let rest₂ := rest₁.drop body.length
      match rest₂ with
      | [] => none
      | c₁ :: t₁ =>
        if c₁ = ')' then
          some (('u' :: 'r' :: 'l' :: '(' :: []) ++ leadQ ++ body ++ [')'], body, t₁)
        else if c₁ = sqc || c₁ = dqc then
          match t₁ with
          | c₂ :: t₂ =>
            if c₂ = ')' then
              some (('u' :: 'r' :: 'l' :: '(' :: []) ++ leadQ ++ body ++ [c₁, ')'], body, t₂)
            else none
          | [] => none
        else none
  else none

/-- Left-to-right, non-overlapping scan for `url()` tokens
(`cssContent.match(/url\(...\)/g)`), fuel-bounded for structural recursion. -/
def scanUrlAux : Nat → Str → List (Str × Str)
  | 0, _ => []
  | _ + 1, [] => []
  | fuel + 1, c :: rest =>
    match tryMatchUrl (c :: rest) with
    | some (m, inner, remaining) => (m, inner) :: scanUrlAux fuel remaining
    | none => scanUrlAux fuel rest

def scanUrlMatches (s : Str) : List (Str × Str) := scanUrlAux (s.length + 1) s

/-- The replacement text `url('<relativePath>')`. -/
def urlQuoted (r : Str) : Str :=
  ('u' :: 'r' :: 'l' :: '(' :: []) ++ [sqc] ++ r ++ [sqc] ++ [')']

structure CssFold where
  acc : Str
  count : Nat
  dl : List Str
  disk : List (Str × Str)
  deriving Repr

/-- One iteration of the per-`url()`-reference loop of `processCssFile`
(`src/index.js:168-195`): resolve the reference against the stylesheet's own
URL, download same-host references to their asset path, and substitute the
on-disk-relative path on success; per-iteration errors are caught and
skipped. -/
def cssStep (http : Str → HttpResp) (outputDir : Str) (dlFuel : Nat) (now : Nat)
    (cssFilePath : Str) (cssHost cssHref : Str) (mText inner : Str) (s : CssFold) : CssFold :=
  match parseUrl (resolveUrl inner cssHref) with
  | none => s
  | some ru =>
    if ru.hostname = cssHost then
      match (downloadResource http dlFuel (resolveUrl inner cssHref)
          (joinPath outputDir (getResourcePath (resolveUrl inner cssHref) now)) s.dl s.disk).res with
      | some (.resolved true) =>
        ⟨replaceFirst mText (urlQuoted ((pathRelative (dirnameL cssFilePath)
            (joinPath outputDir (getResourcePath (resolveUrl inner cssHref) now))).map
            (fun c => if c = bslc then '/' else c))) s.acc,
         s.count + 1,
         (downloadResource http dlFuel (resolveUrl inner cssHref)
            (joinPath outputDir (getResourcePath (resolveUrl inner cssHref) now)) s.dl s.disk).dl,
         (downloadResource http dlFuel (resolveUrl inner cssHref)
            (joinPath outputDir (getResourcePath (resolveUrl inner cssHref) now)) s.dl s.disk).disk⟩
      | _ =>
        ⟨s.acc, s.count,
         (downloadResource http dlFuel (resolveUrl inner cssHref)
            (joinPath outputDir (getResourcePath (resolveUrl inner cssHref) now)) s.dl s.disk).dl,
         (downloadResource http dlFuel (resolveUrl inner cssHref)
            (joinPath outputDir (getResourcePath (resolveUrl inner cssHref) now)) s.dl s.disk).disk⟩
    else s

/-- The whole `for (const match of urlMatches)` loop. -/
def cssLoop (http : Str → HttpResp) (outputDir : Str) (dlFuel : Nat) (now : Nat)
    (cssFilePath : Str) (cssHost cssHref : Str) : List (Str × Str) → CssFold → CssFold
  | [], s => s
  | (mText, inner) :: rest, s =>
    cssLoop http outputDir dlFuel now cssFilePath cssHost cssHref rest
      (cssStep http outputDir dlFuel now cssFilePath cssHost cssHref mText inner s)

structure CssInfo where
  original : Str
  modified : Str
  replCount : Nat
  wrote : Bool
  deriving DecidableEq, Repr

structure CssOut where
  dl : List Str
  disk : List (Str × Str)
  info : Option CssInfo
  deriving Repr

/-- `processCssFile(cssFilePath, originalCssUrl)`: read the stylesheet, run
the substitution loop, and write the file back only when the text changed
(`src/index.js:196-203`).  `info = none` models the outer catch (unreadable
file or unparsable stylesheet URL). -/
def processCssFileM (http : Str → HttpResp) (outputDir : Str) (dlFuel : Nat) (now : Nat)
    (cssFilePath cssUrl : Str) (dl : List Str) (disk : List (Str × Str)) : CssOut :=
  match mapGet cssFilePath disk with
  | none => ⟨dl, disk, none⟩
  | some content =>
    match parseUrl cssUrl with
    | none => ⟨dl, disk, none⟩
    | some cu =>
      match scanUrlMatches content with
      | [] => ⟨dl, disk, some ⟨content, content, 0, false⟩⟩
      | m :: ms =>
        let r := cssLoop http outputDir dlFuel now cssFilePath cu.hostname (urlHref cu)
          (m :: ms) ⟨content, 0, dl, disk⟩
        if r.acc ≠ content then
          ⟨r.dl, mapSet cssFilePath r.acc r.disk, some ⟨content, r.acc, r.count, true⟩⟩
        else ⟨r.dl, r.disk, some ⟨content, r.acc, r.count, false⟩⟩

/-! ## Content Rewriter (the injected page-evaluate helpers,
`src/index.js:684-805`) -/

/-- `'../'.repeat(pageDepth) + localPath` relative-depth arithmetic
(`makeRelativePath`, `src/index.js:714-725`). -/
def makeRelativePath (currentPagePath localPath : Str) : Str :=
  let pageDepth := (splitOnChar '/' currentPagePath).length - 1
  if pageDepth > 0 then repeatL ('.' :: '.' :: '/' :: []) pageDepth ++ localPath
  else localPath

/-- `originalUrl.replace(/^https?:/, '')`. -/
def withoutProtocol (s : Str) : Str :=
  if isPre ('h' :: 't' :: 't' :: 'p' :: 's' :: ':' :: []) s then s.drop 6
  else if isPre ('h' :: 't' :: 't' :: 'p' :: ':' :: []) s then s.drop 5
  else s

/-- The `urlVariations` map (`src/index.js:685-704`): full URL,
protocol-relative form, bare pathname, pathname + query. -/
def buildUrlVariations (m : List (Str × Str)) : List (Str × Str) :=
  m.foldl
    (fun vars e =>
      let vars₁ := mapSet e.1 e.2 vars
      let vars₂ := mapSet (withoutProtocol e.1) e.2 vars₁
      match parseUrl e.1 with
      | some o =>
        let vars₃ := mapSet o.pathname e.2 vars₂
        if !(o.search = []) then mapSet (o.pathname ++ o.search) e.2 vars₃ else vars₃
      | none => vars₂)
    []

/-- First variation whose key equals the attribute value exactly
(`src/index.js:779-785`). -/
def findExact (value : Str) : List (Str × Str) → Option Str
  | [] => none
  | (k, lp) :: t => if value = k then some lp else findExact value t

/-- Second pass: match the attribute value against each variation's pathname
forms (`src/index.js:788-802`). -/
def findPathMatch (value : Str) : List (Str × Str) → Option Str
  | [] => none
  | (k, lp) :: t =>
    match parseUrl k with
    | some o =>
      let bare := stripLeadingSlash o.pathname
      if value = o.pathname || value = bare || endsWithL ('/' :: bare) value then some lp
      else findPathMatch value t
    | none => findPathMatch value t

/-- `replaceUrlInAttribute` for a plain single-URL attribute (`src`/`href`):
`some p` means the attribute is rewritten to `p`, `none` leaves it untouched
(`src/index.js:707-805`, regular-attribute branch). -/
def replaceUrlGeneric (variations : List (Str × Str)) (currentPagePath value : Str) : Option Str :=
  if value = [] then none
  else
    match findExact value variations with
    | some lp => some (makeRelativePath currentPagePath lp)
    | none => (findPathMatch value variations).map (makeRelativePath currentPagePath)

/-! ## Frontier and Mirror Orchestrator (`scrape`/`scrapePage`/`shouldScrapeUrl`,
`src/index.js:303-977`) -/

structure ResourceRef where
  url : Str
  rtype : Str  -- the extractor's `type` field (css, image, js, media, ...)
  deriving DecidableEq, Repr

/-- What the Page Renderer collaborator yields for one page: title, absolute
link targets, resource references, and the rewritten markup handed back by
the final `page.evaluate` (DOM rewriting itself happens inside the browser). -/
structure PageData where
  title : Str
  links : List Str
  resources : List ResourceRef
  content : Str

/-- External collaborators: the headless browser (`render`; `.error msg`
models `page.goto`/`page.evaluate` throwing or timing out) and the HTTP
stack. -/
structure World where
  render : Str → Except Str PageData
  http : Str → HttpResp

def renderOk (w : World) (u : Str) : Bool :=
  match w.render u with
  | .ok _ => true
  | .error _ => false

structure Config where
  baseUrl : URLRec  -- `new URL(this.baseUrl)`, whose hostname is `baseDomain`
  outputDir : Str

structure PageRecord where
  title : Str
  links : List Str
  resources : List Str
  timestamp : Nat
  deriving DecidableEq, Repr

/-- Crawl state: the JS Sets/Maps of the `WebsiteScraper` instance plus the
filesystem, a clock, and two histories (`dequeued`, `processed`) recording
what the loop removed from `pending` and which URLs reached `scrapePage`. -/
structure ScraperState where
  pending : List Str
  visited : List Str
  downloadedResources : List Str
  disk : List (Str × Str)
  sitemap : List (Str × PageRecord)
  dequeued : List Str
  processed : List Str
  time : Nat

def initState (baseUrlStr : Str) : ScraperState :=
  ⟨[baseUrlStr], [], [], [], [], [], [], 0⟩

def skipExtensions : List Str :=
  [('.' :: 'p' :: 'd' :: 'f' :: []), ('.' :: 'j' :: 'p' :: 'g' :: []),
   ('.' :: 'j' :: 'p' :: 'e' :: 'g' :: []), ('.' :: 'p' :: 'n' :: 'g' :: []),
   ('.' :: 'g' :: 'i' :: 'f' :: []), ('.' :: 'c' :: 's' :: 's' :: []),
   ('.' :: 'j' :: 's' :: []), ('.' :: 'i' :: 'c' :: 'o' :: []),
   ('.' :: 's' :: 'v' :: 'g' :: []), ('.' :: 'z' :: 'i' :: 'p' :: []),
   ('.' :: 'd' :: 'o' :: 'c' :: []), ('.' :: 'd' :: 'o' :: 'c' :: 'x' :: []),
   ('.' :: 'x' :: 'l' :: 's' :: []), ('.' :: 'x' :: 'l' :: 's' :: 'x' :: []),
   ('.' :: 'p' :: 'p' :: 't' :: []), ('.' :: 'p' :: 'p' :: 't' :: 'x' :: []),
   ('.' :: 'm' :: 'p' :: '4' :: []), ('.' :: 'm' :: 'p' :: '3' :: []),
   ('.' :: 'w' :: 'a' :: 'v' :: []), ('.' :: 'a' :: 'v' :: 'i' :: []),
   ('.' :: 'm' :: 'o' :: 'v' :: []), ('.' :: 'w' :: 'm' :: 'v' :: []),
   ('.' :: 'f' :: 'l' :: 'v' :: []), ('.' :: 'w' :: 'e' :: 'b' :: 'm' :: []),
   ('.' :: 'o' :: 'g' :: 'g' :: [])]

/-- `shouldScrapeUrl(url)` (`src/index.js:929-977`), checked against the
evolving `visited` and `pending` sets. -/
def shouldScrapeUrl (cfg : Config) (visited pending : List Str) (link : Str) : Bool :=
  match parseUrl link with
  | none => false
  | some u =>
    if u.hostname ≠ cfg.baseUrl.hostname then false
    else
      let clean := cleanUrl u
      if link ∈ visited ∨ clean ∈ visited then false
      else if link ∈ pending ∨ clean ∈ pending then false
      else if skipExtensions.any (fun e => endsWithL e (toLowerL u.pathname)) then false
      else if u.protocol ≠ ('h' :: 't' :: 't' :: 'p' :: ':' :: []) ∧
              u.protocol ≠ ('h' :: 't' :: 't' :: 'p' :: 's' :: ':' :: []) then false
      else if u.hash ≠ [] ∧ u.pathname = cfg.baseUrl.pathname ∧ u.search = [] then false
      else if endsWithL (['#']) link then false
      else true

/-- First-occurrence de-duplication of resource references by URL
(`uniqueResources`, `src/index.js:559-564`). -/
def dedupResources (seen : List Str) : List ResourceRef → List ResourceRef
  | [] => []
  | r :: t =>
    if r.url ∈ seen then dedupResources seen t
    else r :: dedupResources (r.url :: seen) t

structure PRout where
  rmap : List (Str × Str)
  dl : List Str
  disk : List (Str × Str)

/-- The per-page resource download loop (`src/index.js:568-600`): same-host
resources are fetched to their asset path; successful downloads enter the
Resource Map, and freshly downloaded stylesheets get an immediate CSS pass
(line 585-592); failures — returned, rejected-and-caught at line 597, or
divergent — leave no map entry. -/
def processResources (http : Str → HttpResp) (outputDir : Str) (dlFuel : Nat)
    (pageUrlStr : Str) (now : Nat) :
    List ResourceRef → List (Str × Str) → List Str → List (Str × Str) → PRout
  | [], rmap, dl, disk => ⟨rmap, dl, disk⟩
  | r :: rest, rmap, dl, disk =>
    match parseUrl r.url, parseUrl pageUrlStr with
    | some ru, some pu =>
      if ru.hostname = pu.hostname then
        let localPath := getResourcePath r.url now
        let fullPath := joinPath outputDir localPath
        let d := downloadResource http dlFuel r.url fullPath dl disk
        match d.res with
        | some (.resolved true) =>
          let rmap₁ := mapSet r.url localPath rmap
          if r.rtype = ('c' :: 's' :: 's' :: []) ∧ endsWithL ('.' :: 'c' :: 's' :: 's' :: []) localPath then
            let c := processCssFileM http outputDir dlFuel now fullPath r.url d.dl d.disk
            processResources http outputDir dlFuel pageUrlStr now rest rmap₁ c.dl c.disk
          else processResources http outputDir dlFuel pageUrlStr now rest rmap₁ d.dl d.disk
        | _ => processResources http outputDir dlFuel pageUrlStr now rest rmap d.dl d.disk
      else processResources http outputDir dlFuel pageUrlStr now rest rmap dl disk
    | _, _ => processResources http outputDir dlFuel pageUrlStr now rest rmap dl disk

/-- The placeholder document written when a page render fails
(`src/index.js:899-909`). -/
def errorPageHtml (url msg : Str) : Str :=
  ("<!DOCTYPE html>\n<html>\n<head>\n    <title>Error loading page</title>\n</head>\n<body>\n    <h1>Error loading page: ".data) ++ url ++
  ("</h1>\n    <p>Error: ".data) ++ msg ++
  ("</p>\n    <p>This page could not be loaded during scraping.</p>\n</body>\n</html>".data)

/-- `scrapePage(url)` (`src/index.js:342-927`): on a successful render,
enqueue eligible links (as clean URLs), download resources, record the Page
Record, run the after-the-fact CSS pass, and save the rewritten markup; on a
failed render, save the placeholder document instead.  `visited` is not
touched here — the loop updates it afterwards. -/
def scrapePage (w : World) (cfg : Config) (dlFuel : Nat) (url : Str) (st : ScraperState) : ScraperState :=
  match w.render url with
  | .error msg =>
    let fn := joinPath cfg.outputDir (savedFileName url st.time)
    { st with disk := mapSet fn (errorPageHtml url msg) st.disk }
  | .ok pd =>
    let pend := pd.links.foldl
      (fun pnd link =>
        if shouldScrapeUrl cfg st.visited pnd link then
          match parseUrl link with
          | some lu => setAdd (cleanUrl lu) pnd
          | none => pnd
        else pnd)
      st.pending
    let uniq := dedupResources [] pd.resources
    let pr := processResources w.http cfg.outputDir dlFuel url st.time uniq [] st.downloadedResources st.disk
    let sm := mapSet url (⟨pd.title, pd.links, pr.rmap.map Prod.fst, st.time⟩ : PageRecord) st.sitemap
    let after := pr.rmap.foldl
      (fun (p : List Str × List (Str × Str)) e =>
        if endsWithL ('.' :: 'c' :: 's' :: 's' :: []) e.2 then
          let c := processCssFileM w.http cfg.outputDir dlFuel st.time
            (joinPath cfg.outputDir e.2) e.1 p.1 p.2
          (c.dl, c.disk)
        else p)
      (pr.dl, pr.disk)
    { st with pending := pend,
              downloadedResources := after.1,
              disk := mapSet (joinPath cfg.outputDir (savedFileName url st.time)) pd.content after.2,
              sitemap := sm }

/-- One iteration of the `while (this.pendingUrls.size > 0)` loop
(`src/index.js:310-325`): dequeue the first pending URL, skip it if already
visited, otherwise scrape it and then mark it visited.  `none` when the
frontier is empty (loop exit). -/
def crawlStep (w : World) (cfg : Config) (dlFuel : Nat) (st : ScraperState) : Option ScraperState :=
  match st.pending with
  | [] => none
  | u :: rest =>
    let st₁ := { st with pending := rest, dequeued := st.dequeued ++ [u] }
    if u ∈ st₁.visited then some st₁
    else
      let st₂ := scrapePage w cfg dlFuel u { st₁ with processed := st₁.processed ++ [u] }
      some { st₂ with visited := setAdd u st₂.visited, time := st₂.time + 1 }

/-- The crawl loop run for at most `n` iterations. -/
def crawlLoop (w : World) (cfg : Config) (dlFuel : Nat) : Nat → ScraperState → ScraperState
  | 0, st => st
  | n + 1, st =>
    match crawlStep w cfg dlFuel st with
    | none => st
    | some st₁ => crawlLoop w cfg dlFuel n st₁

/-! ## Helper lemmas -/

theorem mem_setAdd_self (x : Str) (l : List Str) : x ∈ setAdd x l := by
  unfold setAdd
  by_cases h : x ∈ l
  · simp [h]
  · simp [h]

theorem mem_setAdd_of_mem {y : Str} {l : List Str} (x : Str) (h : y ∈ l) : y ∈ setAdd x l := by
  unfold setAdd
  by_cases hx : x ∈ l
  · simpa [hx]
  · simp [hx, h]

theorem mapGet_mapSet_self {α : Type} (k : Str) (v : α) (m : List (Str × α)) :
    mapGet k (mapSet k v m) = some v := by
  induction m with
  | nil => simp [mapSet, mapGet]
  | cons e t ih =>
    obtain ⟨k₁, v₁⟩ := e
    unfold mapSet
    by_cases h : k₁ = k
    · simp [h, mapGet]
    · simp [h, mapGet, ih]

theorem mapSet_of_not_mem {α : Type} {k : Str} {m : List (Str × α)}
    (h : k ∉ m.map Prod.fst) (v : α) : mapSet k v m = m ++ [(k, v)] := by
  induction m with
  | nil => rfl
  | cons e t ih =>
    obtain ⟨k₁, v₁⟩ := e
    simp only [List.map_cons, List.mem_cons] at h
    push_neg at h
    simp [mapSet, Ne.symm h.1, ih h.2]

theorem splitOnChar_ne_nil (sep : Char) (s : Str) : splitOnChar sep s ≠ [] := by
  cases s with
  | nil => simp [splitOnChar]
  | cons c rest =>
    unfold splitOnChar
    by_cases h : c = sep
    · simp [h]
    · simp only [h, if_false]
      cases hr : splitOnChar sep rest <;> simp

theorem splitOnChar_length (sep : Char) (s : Str) :
    (splitOnChar sep s).length = s.count sep + 1 := by
  induction s with
  | nil => rfl
  | cons c rest ih =>
    unfold splitOnChar
    by_cases h : c = sep
    · simp [h, List.count_cons, ih]
    · cases hr : splitOnChar sep rest with
      | nil => exact absurd hr (splitOnChar_ne_nil sep rest)
      | cons r₁ rs =>
        rw [hr] at ih
        simp only [h, if_false]
        simp [List.count_cons, h, ← ih]

/-! ## Claim C1: purity/determinism of the two URL-to-local-path mappers -/

/-- C1 (counterexample): `getResourcePath` is not pure.  For the ordinary URL
`https://ex.com/` its path component is empty after stripping the leading
slash, so the result embeds `Date.now()` (`src/index.js:224`) and differs
between two calls made at different times. -/
theorem c1_counterexample :
    getResourcePath ("https://ex.com/".data) 0 ≠ getResourcePath ("https://ex.com/".data) 1 := by
  decide

/-- C1 (amended): `urlToFilePath` is deterministic for every input (it reads
no ambient state), and `getResourcePath` is deterministic for every URL that
parses and whose path component is nonempty after removing the leading slash;
only the empty-path and unparsable-URL fallbacks embed the current clock. -/
theorem c1_amended_determinism (u : Str) (t₁ t₂ : Nat) :
    urlToFilePath u t₁ = urlToFilePath u t₂ ∧
    ∀ r, parseUrl u = some r → stripLeadingSlash r.pathname ≠ [] →
      getResourcePath u t₁ = getResourcePath u t₂ := by
  refine ⟨rfl, ?_⟩
  intro r hr hne
  simp only [getResourcePath, hr, if_neg hne]

/-- C1 (witness): the amended determinism at a concrete asset URL. -/
theorem c1_amended_determinism_witness :
    urlToFilePath ("https://ex.com/style.css".data) 0 = urlToFilePath ("https://ex.com/style.css".data) 1 ∧
    getResourcePath ("https://ex.com/style.css".data) 0 = getResourcePath ("https://ex.com/style.css".data) 1 :=
  ⟨(c1_amended_determinism ("https://ex.com/style.css".data) 0 1).1,
   (c1_amended_determinism ("https://ex.com/style.css".data) 0 1).2
     ⟨"https:".data, "ex.com".data, "/style.css".data, [], []⟩ (by decide) (by decide)⟩

/-! ## Claim C3: the spec's example crawl of `https://ex.com/` -/

def c3style : Str := "https://ex.com/style.css".data

/-- The Resource Map/urlVariations for the example's single stylesheet. -/
def c3vars : List (Str × Str) := buildUrlVariations [(c3style, getResourcePath c3style 0)]

/-- C3 (counterexample): in the spec's example, `about.html` is saved at the
output root (`urlToFilePath` maps `https://ex.com/about` to `about`, depth 0),
so the rewriter emits `assets/style.css` there — not `../assets/style.css` as
the claim states. -/
theorem c3_counterexample :
    replaceUrlGeneric c3vars (urlToFilePath ("https://ex.com/about".data) 0) c3style
      = some ("assets/style.css".data) ∧
    ("assets/style.css".data : Str) ≠ ("../assets/style.css".data : Str) := by
  decide

/-- C3 (amended): the crawl produces `index.html`, `about.html` and
`assets/style.css`, and BOTH pages refer to the stylesheet as
`assets/style.css`, because both page files sit at the output root; a page
one directory deep (e.g. `https://ex.com/about/`, saved as
`about/index.html`) is the one that gets `../assets/style.css`. -/
theorem c3_amended_example :
    savedFileName ("https://ex.com/".data) 0 = "index.html".data ∧
    savedFileName ("https://ex.com/about".data) 0 = "about.html".data ∧
    getResourcePath c3style 0 = "assets/style.css".data ∧
    replaceUrlGeneric c3vars (urlToFilePath ("https://ex.com/".data) 0) c3style
      = some ("assets/style.css".data) ∧
    replaceUrlGeneric c3vars (urlToFilePath ("https://ex.com/about".data) 0) c3style
      = some ("assets/style.css".data) ∧
    replaceUrlGeneric c3vars (urlToFilePath ("https://ex.com/about/".data) 0) c3style
      = some ("../assets/style.css".data) := by
  decide

/-! ## Claim C4: depth-relative path arithmetic -/

/-- C4: a Resource-Map match with local path `assets/x` is rewritten to
`assets/x` from a root-level page (page path with no slash) and to
`../assets/x` from a one-level-deep page (page path with exactly one slash);
and a matched attribute value is always rewritten through
`makeRelativePath`. -/
theorem c4_depth_arithmetic (p x : Str) :
    (p.count '/' = 0 →
      makeRelativePath p ("assets/".data ++ x) = "assets/".data ++ x) ∧
    (p.count '/' = 1 →
      makeRelativePath p ("assets/".data ++ x) = "../assets/".data ++ x) ∧
    (∀ v lp, v ≠ [] → replaceUrlGeneric [(v, lp)] p v = some (makeRelativePath p lp)) := by
  refine ⟨?_, ?_, ?_⟩
  · intro h
    unfold makeRelativePath
    rw [splitOnChar_length, h]
    simp
  · intro h
    unfold makeRelativePath
    rw [splitOnChar_length, h]
    simp [repeatL]
  · intro v lp hv
    unfold replaceUrlGeneric findExact
    simp [hv]

/-- C4 (witness): the depth arithmetic at the concrete page paths `about`
(root level) and `blog/post` (one level deep). -/
theorem c4_depth_arithmetic_witness :
    makeRelativePath ("about".data) ("assets/".data ++ "x.png".data) = "assets/".data ++ "x.png".data ∧
    makeRelativePath ("blog/post".data) ("assets/".data ++ "x.png".data) = "../assets/".data ++ "x.png".data ∧
    replaceUrlGeneric [("https://ex.com/x.png".data, "assets/x.png".data)] ("about".data) ("https://ex.com/x.png".data)
      = some (makeRelativePath ("about".data) ("assets/x.png".data)) :=
  ⟨(c4_depth_arithmetic ("about".data) ("x.png".data)).1 (by decide),
   (c4_depth_arithmetic ("blog/post".data) ("x.png".data)).2.1 (by decide),
   (c4_depth_arithmetic ("about".data) ("x.png".data)).2.2
     ("https://ex.com/x.png".data) ("assets/x.png".data) (by decide)⟩

/-! ## Claim C10: manifest `fileName` vs the file actually written -/

/-- C10: `generateSitemap` appends `.html` unconditionally
(`src/index.js:1026`) while `scrapePage` appends it only when missing
(`src/index.js:883-885`), so for any page URL whose derived path already ends
in `.html` the manifest name (`x.html.html`) differs from the saved file
(`x.html`). -/
theorem c10_manifest_filename (u : Str) (now : Nat)
    (h : endsWithL (".html".data) (urlToFilePath u now) = true) :
    sitemapFileName u now = urlToFilePath u now ++ ".html".data ∧
    savedFileName u now = urlToFilePath u now ∧
    sitemapFileName u now ≠ savedFileName u now := by
  refine ⟨rfl, ?_, ?_⟩
  · unfold savedFileName
    rw [if_pos h]
  · unfold savedFileName sitemapFileName
    rw [if_pos h]
    intro he
    have hlen := congrArg List.length he
    simp at hlen

/-- C10 (witness): the divergence at the concrete URL
`https://ex.com/page.html`. -/
theorem c10_manifest_filename_witness :
    sitemapFileName ("https://ex.com/page.html".data) 0
      = urlToFilePath ("https://ex.com/page.html".data) 0 ++ ".html".data ∧
    savedFileName ("https://ex.com/page.html".data) 0
      = urlToFilePath ("https://ex.com/page.html".data) 0 ∧
    sitemapFileName ("https://ex.com/page.html".data) 0
      ≠ savedFileName ("https://ex.com/page.html".data) 0 :=
  c10_manifest_filename ("https://ex.com/page.html".data) 0 (by decide)

/-! ## Claims C5 and C7: Resource Fetcher behaviour -/

theorem dlPre_short {url outPath : Str} {dl : List Str} {disk : List (Str × Str)}
    (h : url ∈ dl ∨ (mapGet outPath disk).isSome) :
    ∃ dl', dlPre url outPath dl disk = some ⟨some (.resolved true), dl', disk, 0⟩ ∧ url ∈ dl' := by
  unfold dlPre
  by_cases h₁ : url ∈ dl
  · exact ⟨dl, by simp [h₁], h₁⟩
  · have h₂ : (mapGet outPath disk).isSome := h.resolve_left h₁
    exact ⟨setAdd url dl, by simp [h₁, h₂], mem_setAdd_self url dl⟩

theorem downloadResource_short {url outPath : Str} {dl : List Str} {disk : List (Str × Str)}
    (http : Str → HttpResp) (fuel : Nat)
    (h : url ∈ dl ∨ (mapGet outPath disk).isSome) :
    (downloadResource http fuel url outPath dl disk).res = some (.resolved true) ∧
    (downloadResource http fuel url outPath dl disk).net = 0 := by
  obtain ⟨dl', hpre, _⟩ := dlPre_short h
  cases fuel <;> simp [downloadResource, hpre]

theorem downloadResource_ok_mem {url outPath : Str} {dl : List Str} {disk : List (Str × Str)}
    {http : Str → HttpResp} {body : Str} {r : URLRec} (fuel : Nat)
    (hparse : parseUrl url = some r) (hok : http url = .ok body) :
    (downloadResource http (fuel + 1) url outPath dl disk).res = some (.resolved true) ∧
    url ∈ (downloadResource http (fuel + 1) url outPath dl disk).dl := by
  by_cases h₁ : url ∈ dl
  · simp [downloadResource, dlPre, h₁]
  · by_cases h₂ : (mapGet outPath disk).isSome
    · simp [downloadResource, dlPre, h₁, h₂, mem_setAdd_self]
    · simp [downloadResource, dlPre, h₁, h₂, hparse, hok, mem_setAdd_self]

def httpC5 : Str → HttpResp := fun u =>
  if u = "https://ex.com/logo2".data then .redirect (some ("https://ex.com/logo".data))
  else .ok ("data".data)

def c5url : Str := "https://ex.com/logo2".data

def c5path : Str := "scraped-site/assets/logo2.resource".data

/-- First fetch of `c5url`: a 302 whose target is already in the
Downloaded-set under another destination path. -/
def c5first : DLOut := downloadResource httpC5 5 c5url c5path ["https://ex.com/logo".data] []

/-- Second, identical fetch, from the state the first one left. -/
def c5second : DLOut := downloadResource httpC5 5 c5url c5path c5first.dl c5first.disk

/-- C5 (counterexample): a fetch resolved through a redirect to an
already-downloaded URL succeeds without recording `c5url` in the
Downloaded-set and without creating the destination file
(`src/index.js:110-121` adds only the redirect target, and the recursive call
short-circuits before writing).  Repeating the same call therefore issues
another network request: the two calls together perform two transfers, not
one, and the second call is not a no-op. -/
theorem c5_counterexample :
    c5first.res = some (.resolved true) ∧ c5first.net = 1 ∧ c5second.net = 1 := by
  decide

/-- C5 (amended): if the URL is already in the Downloaded-set or the
destination path already exists on disk, `downloadResource` succeeds
immediately with zero network requests; and after a first call answered by a
direct 200 (or short-circuited), an identical second call is a no-op success
with zero network requests.  (A first call resolved through a redirect whose
target was already downloaded records neither the URL nor the file, and its
repeat does touch the network — the counterexample above.) -/
theorem c5_amended_idempotence :
    (∀ (http : Str → HttpResp) (fuel : Nat) (url outPath : Str) (dl : List Str)
       (disk : List (Str × Str)),
       url ∈ dl ∨ (mapGet outPath disk).isSome →
       (downloadResource http fuel url outPath dl disk).res = some (.resolved true) ∧
       (downloadResource http fuel url outPath dl disk).net = 0) ∧
    (∀ (http : Str → HttpResp) (fuel : Nat) (url outPath : Str) (dl : List Str)
       (disk : List (Str × Str)) (body : Str) (r : URLRec),
       parseUrl url = some r → http url = .ok body →
       (downloadResource http (fuel + 1) url outPath dl disk).res = some (.resolved true) ∧
       (downloadResource http (fuel + 1) url outPath
          (downloadResource http (fuel + 1) url outPath dl disk).dl
          (downloadResource http (fuel + 1) url outPath dl disk).disk).res
         = some (.resolved true) ∧
       (downloadResource http (fuel + 1) url outPath
          (downloadResource http (fuel + 1) url outPath dl disk).dl
          (downloadResource http (fuel + 1) url outPath dl disk).disk).net = 0) := by
  refine ⟨fun http fuel url outPath dl disk h => downloadResource_short http fuel h, ?_⟩
  intro http fuel url outPath dl disk body r hparse hok
  obtain ⟨hres, hmem⟩ := downloadResource_ok_mem fuel hparse hok
  obtain ⟨hres₂, hnet₂⟩ := downloadResource_short http (fuel + 1) (Or.inl hmem)
  exact ⟨hres, hres₂, hnet₂⟩

/-- C5 (witness): the amended idempotence at concrete inputs — a
short-circuited fetch of an already-downloaded URL, and a direct 200 download
followed by a no-op repeat. -/
theorem c5_amended_idempotence_witness :
    ((downloadResource httpC5 3 ("https://ex.com/logo".data) c5path ["https://ex.com/logo".data] []).res
       = some (.resolved true) ∧
     (downloadResource httpC5 3 ("https://ex.com/logo".data) c5path ["https://ex.com/logo".data] []).net = 0) ∧
    ((downloadResource httpC5 (2 + 1) ("https://ex.com/a.png".data) ("scraped-site/assets/a.png".data) [] []).res
       = some (.resolved true) ∧
     (downloadResource httpC5 (2 + 1) ("https://ex.com/a.png".data) ("scraped-site/assets/a.png".data)
        (downloadResource httpC5 (2 + 1) ("https://ex.com/a.png".data) ("scraped-site/assets/a.png".data) [] []).dl
        (downloadResource httpC5 (2 + 1) ("https://ex.com/a.png".data) ("scraped-site/assets/a.png".data) [] []).disk).res
       = some (.resolved true) ∧
     (downloadResource httpC5 (2 + 1) ("https://ex.com/a.png".data) ("scraped-site/assets/a.png".data)
        (downloadResource httpC5 (2 + 1) ("https://ex.com/a.png".data) ("scraped-site/assets/a.png".data) [] []).dl
        (downloadResource httpC5 (2 + 1) ("https://ex.com/a.png".data) ("scraped-site/assets/a.png".data) [] []).disk).net = 0) :=
  ⟨c5_amended_idempotence.1 httpC5 3 ("https://ex.com/logo".data) c5path ["https://ex.com/logo".data] []
     (Or.inl (by decide)),
   c5_amended_idempotence.2 httpC5 2 ("https://ex.com/a.png".data) ("scraped-site/assets/a.png".data) [] []
     ("data".data) ⟨"https:".data, "ex.com".data, "/a.png".data, [], []⟩ (by decide) (by decide)⟩

/-- C7 (counterexample): a transport error makes `downloadResource` reject
(`reject(err)` at `src/index.js:136-140`, escaping the enclosing `try`
because the promise is returned un-awaited), so the failure reaches the
caller as a rejected promise rather than a returned result. -/
theorem c7_counterexample :
    (downloadResource (fun _ => .transportErr) 5 ("https://ex.com/a.css".data)
       ("scraped-site/assets/a.css".data) [] []).res = some .rejected ∧
    (some PromiseRes.rejected : Option PromiseRes) ≠ some (.resolved false) := by
  decide

/-- C7 (amended): a non-200, non-redirect HTTP status is reported as a
returned failure (`resolve(false)`, `src/index.js:122-127`); transport errors
and timeouts are rejections; and a rejected per-resource download is caught
by the orchestrator's loop (`src/index.js:597`), which continues with the
remaining resources. -/
theorem c7_amended_failure_reporting :
    (∀ (http : Str → HttpResp) (fuel : Nat) (url outPath : Str) (dl : List Str)
       (disk : List (Str × Str)) (r : URLRec),
       url ∉ dl → mapGet outPath disk = none → parseUrl url = some r →
       http url = .otherStatus →
       (downloadResource http (fuel + 1) url outPath dl disk).res = some (.resolved false)) ∧
    (∀ (http : Str → HttpResp) (fuel : Nat) (url outPath : Str) (dl : List Str)
       (disk : List (Str × Str)) (r : URLRec),
       url ∉ dl → mapGet outPath disk = none → parseUrl url = some r →
       http url = .transportErr ∨ http url = .timeout →
       (downloadResource http (fuel + 1) url outPath dl disk).res = some .rejected) ∧
    (∀ (http : Str → HttpResp) (outputDir : Str) (dlFuel now : Nat) (pageUrl : Str)
       (r : ResourceRef) (rest : List ResourceRef) (rmap : List (Str × Str))
       (dl : List Str) (disk : List (Str × Str)) (ru pu : URLRec),
       parseUrl r.url = some ru → parseUrl pageUrl = some pu → ru.hostname = pu.hostname →
       (downloadResource http dlFuel r.url (joinPath outputDir (getResourcePath r.url now)) dl disk).res
         = some .rejected →
       ∃ dl' disk', processResources http outputDir dlFuel pageUrl now (r :: rest) rmap dl disk
         = processResources http outputDir dlFuel pageUrl now rest rmap dl' disk') := by
  refine ⟨?_, ?_, ?_⟩
  · intro http fuel url outPath dl disk r h₁ h₂ h₃ h₄
    simp [downloadResource, dlPre, h₁, h₂, h₃, h₄]
  · intro http fuel url outPath dl disk r h₁ h₂ h₃ h₄
    rcases h₄ with h₄ | h₄ <;> simp [downloadResource, dlPre, h₁, h₂, h₃, h₄]
  · intro http outputDir dlFuel now pageUrl r rest rmap dl disk ru pu h₁ h₂ h₃ h₄
    refine ⟨(downloadResource http dlFuel r.url (joinPath outputDir (getResourcePath r.url now)) dl disk).dl,
            (downloadResource http dlFuel r.url (joinPath outputDir (getResourcePath r.url now)) dl disk).disk, ?_⟩
    simp [processResources, h₁, h₂, h₃, h₄]

/-- C7 (witness): the amended failure reporting at concrete inputs — a 404
returned as `false`, a timeout rejected, and the resource loop continuing
past a rejected download. -/
theorem c7_amended_failure_reporting_witness :
    ((downloadResource (fun _ => .otherStatus) (4 + 1) ("https://ex.com/a.css".data)
        ("scraped-site/assets/a.css".data) [] []).res = some (.resolved false)) ∧
    ((downloadResource (fun _ => .timeout) (4 + 1) ("https://ex.com/a.css".data)
        ("scraped-site/assets/a.css".data) [] []).res = some .rejected) ∧
    (∃ dl' disk',
       processResources (fun _ => .transportErr) ("scraped-site".data) 4 ("https://ex.com/".data) 0
         (⟨"https://ex.com/a.css".data, "css".data⟩ :: []) [] [] []
         = processResources (fun _ => .transportErr) ("scraped-site".data) 4 ("https://ex.com/".data) 0
             [] [] dl' disk') :=
  ⟨c7_amended_failure_reporting.1 (fun _ => .otherStatus) 4 ("https://ex.com/a.css".data)
     ("scraped-site/assets/a.css".data) [] [] ⟨"https:".data, "ex.com".data, "/a.css".data, [], []⟩
     (by decide) (by decide) (by decide) rfl,
   c7_amended_failure_reporting.2.1 (fun _ => .timeout) 4 ("https://ex.com/a.css".data)
     ("scraped-site/assets/a.css".data) [] [] ⟨"https:".data, "ex.com".data, "/a.css".data, [], []⟩
     (by decide) (by decide) (by decide) (Or.inr rfl),
   c7_amended_failure_reporting.2.2 (fun _ => .transportErr) ("scraped-site".data) 4 0
     ("https://ex.com/".data) ⟨"https://ex.com/a.css".data, "css".data⟩ [] [] [] []
     ⟨"https:".data, "ex.com".data, "/a.css".data, [], []⟩
     ⟨"https:".data, "ex.com".data, "/".data, [], []⟩
     (by decide) (by decide) (by decide) (by decide)⟩



/-! ## Claim C9: CSS write-back frame property -/

theorem cssStep_spec (http : Str → HttpResp) (outputDir : Str) (dlFuel now : Nat)
    (cssFilePath cssHost cssHref mText inner : Str) (s : CssFold) :
    ((cssStep http outputDir dlFuel now cssFilePath cssHost cssHref mText inner s).count = s.count ∧
     (cssStep http outputDir dlFuel now cssFilePath cssHost cssHref mText inner s).acc = s.acc) ∨
    (cssStep http outputDir dlFuel now cssFilePath cssHost cssHref mText inner s).count = s.count + 1 := by
  unfold cssStep
  cases hp : parseUrl (resolveUrl inner cssHref) with
  | none => exact Or.inl ⟨rfl, rfl⟩
  | some ru =>
    simp only []
    by_cases hh : ru.hostname = cssHost
    · rw [if_pos hh]
      cases hres : (downloadResource http dlFuel (resolveUrl inner cssHref)
          (joinPath outputDir (getResourcePath (resolveUrl inner cssHref) now)) s.dl s.disk).res with
      | none => exact Or.inl ⟨rfl, rfl⟩
      | some pr =>
        cases pr with
        | resolved b =>
          cases b with
          | true => exact Or.inr rfl
          | false => exact Or.inl ⟨rfl, rfl⟩
        | rejected => exact Or.inl ⟨rfl, rfl⟩
    · rw [if_neg hh]
      exact Or.inl ⟨rfl, rfl⟩

theorem cssLoop_count_le (http : Str → HttpResp) (outputDir : Str) (dlFuel now : Nat)
    (cssFilePath cssHost cssHref : Str) (ms : List (Str × Str)) (s : CssFold) :
    s.count ≤ (cssLoop http outputDir dlFuel now cssFilePath cssHost cssHref ms s).count := by
  induction ms generalizing s with
  | nil => exact Nat.le_refl _
  | cons m rest ih =>
    obtain ⟨mText, inner⟩ := m
    have hstep : s.count ≤ (cssStep http outputDir dlFuel now cssFilePath cssHost cssHref mText inner s).count := by
      rcases cssStep_spec http outputDir dlFuel now cssFilePath cssHost cssHref mText inner s with ⟨h, _⟩ | h
      · rw [h]
      · rw [h]
        exact Nat.le_succ _
    exact Nat.le_trans hstep (ih _)

theorem cssLoop_count_eq_acc (http : Str → HttpResp) (outputDir : Str) (dlFuel now : Nat)
    (cssFilePath cssHost cssHref : Str) (ms : List (Str × Str)) (s : CssFold)
    (h : (cssLoop http outputDir dlFuel now cssFilePath cssHost cssHref ms s).count = s.count) :
    (cssLoop http outputDir dlFuel now cssFilePath cssHost cssHref ms s).acc = s.acc := by
  induction ms generalizing s with
  | nil => rfl
  | cons m rest ih =>
    obtain ⟨mText, inner⟩ := m
    have hfin : (cssLoop http outputDir dlFuel now cssFilePath cssHost cssHref rest
        (cssStep http outputDir dlFuel now cssFilePath cssHost cssHref mText inner s)).count = s.count := h
    have hle := cssLoop_count_le http outputDir dlFuel now cssFilePath cssHost cssHref rest
      (cssStep http outputDir dlFuel now cssFilePath cssHost cssHref mText inner s)
    rcases cssStep_spec http outputDir dlFuel now cssFilePath cssHost cssHref mText inner s with ⟨hc, ha⟩ | hc
    · have h' : (cssLoop http outputDir dlFuel now cssFilePath cssHost cssHref rest
          (cssStep http outputDir dlFuel now cssFilePath cssHost cssHref mText inner s)).count
          = (cssStep http outputDir dlFuel now cssFilePath cssHost cssHref mText inner s).count := by
        rw [hc, hfin]
      have hacc := ih (cssStep http outputDir dlFuel now cssFilePath cssHost cssHref mText inner s) h'
      calc (cssLoop http outputDir dlFuel now cssFilePath cssHost cssHref ((mText, inner) :: rest) s).acc
          = (cssLoop http outputDir dlFuel now cssFilePath cssHost cssHref rest
              (cssStep http outputDir dlFuel now cssFilePath cssHost cssHref mText inner s)).acc := rfl
        _ = (cssStep http outputDir dlFuel now cssFilePath cssHost cssHref mText inner s).acc := hacc
        _ = s.acc := ha
    · exfalso
      rw [hc, hfin] at hle
      omega

/-- C9: `processCssFile` writes the stylesheet back exactly when the
substitution pass changed its text (`src/index.js:196-203`), and a pass in
which no `url()` reference was substituted leaves the text byte-for-byte
unchanged and performs no write. -/
theorem c9_css_write_frame (http : Str → HttpResp) (outputDir : Str) (dlFuel now : Nat)
    (cssFilePath cssUrl : Str) (dl : List Str) (disk : List (Str × Str)) (i : CssInfo)
    (h : (processCssFileM http outputDir dlFuel now cssFilePath cssUrl dl disk).info = some i) :
    (i.wrote = true ↔ i.modified ≠ i.original) ∧
    (i.replCount = 0 → i.modified = i.original ∧ i.wrote = false) := by
  cases hg : mapGet cssFilePath disk with
  | none =>
    unfold processCssFileM at h
    simp [hg] at h
  | some content =>
    cases hp : parseUrl cssUrl with
    | none =>
      unfold processCssFileM at h
      simp [hg, hp] at h
    | some cu =>
      cases hm : scanUrlMatches content with
      | nil =>
        unfold processCssFileM at h
        simp only [hg, hp, hm, Option.some.injEq] at h
        subst h
        simp
      | cons m ms =>
        unfold processCssFileM at h
        simp only [hg, hp, hm] at h
        by_cases hne : (cssLoop http outputDir dlFuel now cssFilePath cu.hostname (urlHref cu)
            (m :: ms) ⟨content, 0, dl, disk⟩).acc = content
        · rw [if_neg (by simp [hne])] at h
          simp only [Option.some.injEq] at h
          subst h
          refine ⟨by simp [hne], fun _ => ⟨hne, rfl⟩⟩
        · rw [if_pos hne] at h
          simp only [Option.some.injEq] at h
          subst h
          refine ⟨by simp [hne], ?_⟩
          intro hc
          exfalso
          exact hne (cssLoop_count_eq_acc http outputDir dlFuel now cssFilePath cu.hostname
            (urlHref cu) (m :: ms) ⟨content, 0, dl, disk⟩ hc)

def c9css : Str := "background:url(img/a.png)".data

def c9info : CssInfo := ⟨c9css, c9css, 0, false⟩

/-- C9 (witness): a stylesheet whose only `url()` reference fails to download
is not substituted, not changed, and not written back. -/
theorem c9_css_write_frame_witness :
    (c9info.wrote = true ↔ c9info.modified ≠ c9info.original) ∧
    (c9info.replCount = 0 → c9info.modified = c9info.original ∧ c9info.wrote = false) :=
  c9_css_write_frame (fun _ => .otherStatus) ("scraped-site".data) 1 0 ("a.css".data)
    ("https://ex.com/css/main.css".data) [] [(("a.css".data), c9css)] c9info (by decide)

/-! ## Crawl-loop lemmas (Claims C2, C6, C8) -/

theorem nodup_append_singleton {l : List Str} {u : Str} (h : l.Nodup) (hu : u ∉ l) :
    (l ++ [u]).Nodup := by
  induction l with
  | nil => simp
  | cons a t ih =>
    rw [List.nodup_cons] at h
    simp only [List.mem_cons] at hu
    push_neg at hu
    rw [List.cons_append, List.nodup_cons]
    refine ⟨?_, ih h.2 hu.2⟩
    simp only [List.mem_append, List.mem_singleton]
    rintro (hmem | rfl)
    · exact h.1 hmem
    · exact hu.1 rfl

/-- `scrapePage` never touches `visited`, `processed`, `dequeued` or the
clock — those belong to the loop. -/
theorem scrapePage_frame (w : World) (cfg : Config) (f : Nat) (u : Str) (st : ScraperState) :
    (scrapePage w cfg f u st).visited = st.visited ∧
    (scrapePage w cfg f u st).processed = st.processed ∧
    (scrapePage w cfg f u st).dequeued = st.dequeued ∧
    (scrapePage w cfg f u st).time = st.time := by
  cases h : w.render u <;> simp [scrapePage, h]

/-- A failed render leaves the Site Index untouched. -/
theorem scrapePage_sitemap_err {w : World} {u msg : Str} (cfg : Config) (f : Nat)
    (st : ScraperState) (h : w.render u = .error msg) :
    (scrapePage w cfg f u st).sitemap = st.sitemap := by
  simp [scrapePage, h]

/-- A successful render records exactly one Page Record, keyed by the page
URL. -/
theorem scrapePage_sitemap_ok {w : World} {u : Str} {pd : PageData} (cfg : Config) (f : Nat)
    (st : ScraperState) (h : w.render u = .ok pd) :
    ∃ rec, (scrapePage w cfg f u st).sitemap = mapSet u rec st.sitemap := by
  refine ⟨⟨pd.title, pd.links,
    (processResources w.http cfg.outputDir f u st.time (dedupResources [] pd.resources) []
      st.downloadedResources st.disk).rmap.map Prod.fst, st.time⟩, ?_⟩
  simp [scrapePage, h]

/-- Dequeuing an already-visited URL only records the dequeue and drops it. -/
theorem crawlStep_skip {st : ScraperState} {u : Str} {rest : List Str}
    (w : World) (cfg : Config) (f : Nat) (hp : st.pending = u :: rest) (hv : u ∈ st.visited) :
    crawlStep w cfg f st = some { st with pending := rest, dequeued := st.dequeued ++ [u] } := by
  unfold crawlStep
  rw [hp]
  simp [hv]

/-- The bookkeeping applied to the state before `scrapePage` runs: the URL is
removed from `pending` and the dequeue/process histories record it. -/
def crawlMark (u : Str) (rest : List Str) (st : ScraperState) : ScraperState :=
  { st with
      pending := rest,
      dequeued := st.dequeued ++ [u],
      processed := st.processed ++ [u] }

/-- The else-branch of `crawlStep` (scrape, then mark visited), named so the
loop invariants can speak about it. -/
def crawlAdvance (w : World) (cfg : Config) (f : Nat) (u : Str) (st : ScraperState)
    (rest : List Str) : ScraperState :=
  { scrapePage w cfg f u (crawlMark u rest st) with
      visited := setAdd u (scrapePage w cfg f u (crawlMark u rest st)).visited,
      time := (scrapePage w cfg f u (crawlMark u rest st)).time + 1 }

/-- Dequeuing a fresh URL scrapes it and then marks it visited. -/
theorem crawlStep_proc {st : ScraperState} {u : Str} {rest : List Str}
    (w : World) (cfg : Config) (f : Nat) (hp : st.pending = u :: rest) (hv : u ∉ st.visited) :
    crawlStep w cfg f st = some (crawlAdvance w cfg f u st rest) := by
  unfold crawlStep crawlAdvance crawlMark
  rw [hp]
  simp [hv]

/-- The crawl-loop invariant: `scrapePage` is invoked at most once per URL
(no duplicates in `processed`), every processed URL ends up visited, and the
Site Index holds exactly one record per successfully rendered processed page,
in processing order. -/
theorem crawl_inv (w : World) (cfg : Config) (f : Nat) (n : Nat) (st : ScraperState)
    (h₁ : st.processed.Nodup) (h₂ : ∀ x ∈ st.processed, x ∈ st.visited)
    (h₃ : st.sitemap.map Prod.fst = st.processed.filter (fun x => renderOk w x)) :
    (crawlLoop w cfg f n st).processed.Nodup ∧
    (∀ x ∈ (crawlLoop w cfg f n st).processed, x ∈ (crawlLoop w cfg f n st).visited) ∧
    (crawlLoop w cfg f n st).sitemap.map Prod.fst
      = (crawlLoop w cfg f n st).processed.filter (fun x => renderOk w x) := by
  induction n generalizing st with
  | zero => exact ⟨h₁, h₂, h₃⟩
  | succ n ih =>
    cases hp : st.pending with
    | nil =>
      have hstep : crawlStep w cfg f st = none := by
        unfold crawlStep
        rw [hp]
      simp only [crawlLoop, hstep]
      exact ⟨h₁, h₂, h₃⟩
    | cons u rest =>
      by_cases hv : u ∈ st.visited
      · have hstep := crawlStep_skip w cfg f hp hv
        simp only [crawlLoop, hstep]
        exact ih _ h₁ h₂ h₃
      · have hstep := crawlStep_proc w cfg f hp hv
        simp only [crawlLoop, hstep]
        have hfr := scrapePage_frame w cfg f u (crawlMark u rest st)
        have hproc : (crawlAdvance w cfg f u st rest).processed = st.processed ++ [u] := by
          have : (crawlAdvance w cfg f u st rest).processed
              = (scrapePage w cfg f u (crawlMark u rest st)).processed := rfl
          rw [this, hfr.2.1]
          rfl
        have hvis : (crawlAdvance w cfg f u st rest).visited = setAdd u st.visited := by
          have : (crawlAdvance w cfg f u st rest).visited
              = setAdd u (scrapePage w cfg f u (crawlMark u rest st)).visited := rfl
          rw [this, hfr.1]
          rfl
        have hu : u ∉ st.processed := fun hmem => hv (h₂ u hmem)
        apply ih
        · rw [hproc]
          exact nodup_append_singleton h₁ hu
        · rw [hproc, hvis]
          intro x hx
          rcases List.mem_append.mp hx with hx | hx
          · exact mem_setAdd_of_mem u (h₂ x hx)
          · rw [List.mem_singleton] at hx
            subst hx
            exact mem_setAdd_self x st.visited
        · have hsm : (crawlAdvance w cfg f u st rest).sitemap
              = (scrapePage w cfg f u (crawlMark u rest st)).sitemap := rfl
          rw [hproc, hsm, List.filter_append]
          cases hr : w.render u with
          | error msg =>
            rw [scrapePage_sitemap_err cfg f _ hr]
            have hmark : (crawlMark u rest st).sitemap = st.sitemap := rfl
            have hok : renderOk w u = false := by simp [renderOk, hr]
            rw [hmark, h₃]
            simp [List.filter, hok]
          | ok pd =>
            obtain ⟨rec, hrec⟩ := scrapePage_sitemap_ok cfg f _ hr
            have hmark : (crawlMark u rest st).sitemap = st.sitemap := rfl
            rw [hmark] at hrec
            have hkey : u ∉ st.sitemap.map Prod.fst := by
              rw [h₃]
              intro hmem
              exact hu (List.mem_of_mem_filter hmem)
            rw [hrec, mapSet_of_not_mem hkey, List.map_append, h₃]
            have hok : renderOk w u = true := by simp [renderOk, hr]
            simp [List.filter, hok]

/-! ## Claim C2: frontier bookkeeping -/

/-- A page that links to itself (an ordinary navigation self-link). -/
def pdSelf : PageData :=
  ⟨"About".data, ["https://ex.com/about".data], [], "<html></html>".data⟩

def wSelf : World :=
  ⟨fun u => if u = "https://ex.com/about".data then .ok pdSelf else .error ("nav".data),
   fun _ => .otherStatus⟩

def cfgSelf : Config :=
  ⟨⟨"https:".data, "ex.com".data, "/about".data, [], []⟩, "scraped-site".data⟩

/-- C2 (counterexample): while a page is being scraped it is in neither
`pending` nor `visited`, so `shouldScrapeUrl` re-admits a self-link
(`src/index.js:942-948` checks only those two sets); after the loop then
marks the page visited, the URL sits in BOTH sets, and the next iteration
dequeues it a second time (it is skipped at `src/index.js:314`, but the
claimed "dequeued at most once" and the disjointness invariant are both
violated). -/
theorem c2_counterexample :
    ("https://ex.com/about".data
        ∈ (crawlLoop wSelf cfgSelf 3 1 (initState ("https://ex.com/about".data))).pending ∧
     "https://ex.com/about".data
        ∈ (crawlLoop wSelf cfgSelf 3 1 (initState ("https://ex.com/about".data))).visited) ∧
    (crawlLoop wSelf cfgSelf 3 2 (initState ("https://ex.com/about".data))).dequeued.count
        ("https://ex.com/about".data) = 2 := by
  decide

/-- C2 (amended): a URL can transiently occupy both `pending` and `visited`
(a page linking to a not-yet-visited page, e.g. itself), and can be dequeued
more than once; what the loop does guarantee is that a dequeued URL already
in `visited` is skipped, so no URL is ever *processed* (passed to
`scrapePage`) twice in a crawl. -/
theorem c2_amended_frontier (w : World) (cfg : Config) (dlFuel n : Nat) (b : Str) :
    (crawlLoop w cfg dlFuel n (initState b)).processed.Nodup :=
  (crawl_inv w cfg dlFuel n (initState b) (by simp [initState]) (by simp [initState])
    (by simp [initState])).1

/-! ## Claim C6: one Page Record per processed page -/

def wFail : World := ⟨fun _ => .error ("timeout".data), fun _ => .otherStatus⟩

def cfg6 : Config := ⟨⟨"https:".data, "ex.com".data, "/".data, [], []⟩, "scraped-site".data⟩

/-- C6 (counterexample): `sitemap.set` lives only in the success path of
`scrapePage` (`src/index.js:604-610`); the catch block (`894-926`) records
nothing.  A crawl whose only page fails to render marks it visited yet emits
a manifest with `totalPages = 0`, so the total-pages count does not equal the
number of visited pages. -/
theorem c6_counterexample :
    (crawlLoop wFail cfg6 1 3 (initState ("https://ex.com/".data))).visited
      = ["https://ex.com/".data] ∧
    (crawlLoop wFail cfg6 1 3 (initState ("https://ex.com/".data))).sitemap.length = 0 ∧
    (crawlLoop wFail cfg6 1 3 (initState ("https://ex.com/".data))).visited.length = 1 := by
  decide

/-- C6 (amended): the Site Index receives exactly one Page Record per
*successfully rendered* page — its keys are precisely the processed URLs
whose render succeeded, in processing order — so the manifest's total-pages
count equals the number of successful renders, which can be smaller than the
number of visited pages. -/
theorem c6_amended_records (w : World) (cfg : Config) (dlFuel n : Nat) (b : Str) :
    (crawlLoop w cfg dlFuel n (initState b)).sitemap.map Prod.fst
      = (crawlLoop w cfg dlFuel n (initState b)).processed.filter (fun x => renderOk w x) ∧
    (crawlLoop w cfg dlFuel n (initState b)).sitemap.length
      = ((crawlLoop w cfg dlFuel n (initState b)).processed.filter (fun x => renderOk w x)).length := by
  have h := (crawl_inv w cfg dlFuel n (initState b) (by simp [initState]) (by simp [initState])
    (by simp [initState])).2.2
  exact ⟨h, by rw [← h, List.length_map]⟩

/-! ## Claim C8: failed renders are non-fatal -/

/-- C8: when the render of a dequeued, unvisited URL throws, the crawl step
still marks that URL visited, writes the error placeholder document to the
page's file path, and hands the remaining frontier to the continuing loop. -/
theorem c8_render_failure (w : World) (cfg : Config) (dlFuel n : Nat) (st : ScraperState)
    (u : Str) (rest : List Str) (msg : Str)
    (hp : st.pending = u :: rest) (hv : u ∉ st.visited) (hr : w.render u = .error msg) :
    ∃ st', crawlStep w cfg dlFuel st = some st' ∧
      u ∈ st'.visited ∧
      mapGet (joinPath cfg.outputDir (savedFileName u st.time)) st'.disk
        = some (errorPageHtml u msg) ∧
      st'.pending = rest ∧
      crawlLoop w cfg dlFuel (n + 1) st = crawlLoop w cfg dlFuel n st' := by
  refine ⟨crawlAdvance w cfg dlFuel u st rest, crawlStep_proc w cfg dlFuel hp hv, ?_, ?_, ?_, ?_⟩
  · have : (crawlAdvance w cfg dlFuel u st rest).visited
        = setAdd u (scrapePage w cfg dlFuel u (crawlMark u rest st)).visited := rfl
    rw [this]
    exact mem_setAdd_self u _
  · have hdisk : (crawlAdvance w cfg dlFuel u st rest).disk
        = (scrapePage w cfg dlFuel u (crawlMark u rest st)).disk := rfl
    rw [hdisk]
    have : scrapePage w cfg dlFuel u (crawlMark u rest st)
        = { crawlMark u rest st with
              disk := mapSet (joinPath cfg.outputDir (savedFileName u (crawlMark u rest st).time))
                (errorPageHtml u msg) (crawlMark u rest st).disk } := by
      simp [scrapePage, hr]
    rw [this]
    have htime : (crawlMark u rest st).time = st.time := rfl
    have hdisk₂ : (crawlMark u rest st).disk = st.disk := rfl
    rw [show ({ crawlMark u rest st with
        disk := mapSet (joinPath cfg.outputDir (savedFileName u (crawlMark u rest st).time))
          (errorPageHtml u msg) (crawlMark u rest st).disk } : ScraperState).disk
      = mapSet (joinPath cfg.outputDir (savedFileName u (crawlMark u rest st).time))
          (errorPageHtml u msg) (crawlMark u rest st).disk from rfl]
    rw [htime]
    exact mapGet_mapSet_self _ _ _
  · have : (crawlAdvance w cfg dlFuel u st rest).pending
        = (scrapePage w cfg dlFuel u (crawlMark u rest st)).pending := rfl
    rw [this]
    simp [scrapePage, hr]
    rfl
  · simp only [crawlLoop, crawlStep_proc w cfg dlFuel hp hv]

/-- C8 (witness): the failure recovery at a concrete one-page crawl whose
render times out. -/
theorem c8_render_failure_witness :
    ∃ st', crawlStep wFail cfg6 1 (initState ("https://ex.com/".data)) = some st' ∧
      "https://ex.com/".data ∈ st'.visited ∧
      mapGet (joinPath cfg6.outputDir (savedFileName ("https://ex.com/".data)
          (initState ("https://ex.com/".data)).time)) st'.disk
        = some (errorPageHtml ("https://ex.com/".data) ("timeout".data)) ∧
      st'.pending = [] ∧
      crawlLoop wFail cfg6 1 (0 + 1) (initState ("https://ex.com/".data))
        = crawlLoop wFail cfg6 1 0 st' :=
  c8_render_failure wFail cfg6 1 0 (initState ("https://ex.com/".data)) ("https://ex.com/".data)
    [] ("timeout".data) rfl (by decide) rfl
